import Mathlib

/-!
Verification development for a two-stage face pipeline:

* `fd_component.py` — Ingestion & Detection Stage: a Greengrass IPC
  subscriber (`on_stream_event` / `process_message`) that deduplicates
  inbound requests by `request_id`, runs MTCNN face detection, and either
  emits a terminal `"No-Face"` Result to the response queue or publishes a
  WorkItem to the recognition work queue.
* `fr_lambda.py` — Recognition & Matching Stage: an SQS-batch Lambda
  (`handler` / `async_handler` / `face_recognition.face_recognition_func`)
  that embeds each face crop with a ResNet and nearest-neighbor matches it
  against a reference database `(embedding_list, name_list)` loaded from
  `torch.load`, emitting one Result per record.

The embedding is shallow: external capabilities (PIL image decoding, MTCNN,
the ResNet forward pass, SQS sends) are parameters of an environment
structure; numeric embeddings are `List ℚ` and `torch.dist` (the Euclidean
2-norm) is modelled through its square `sqDistQ`, with the bridge to the
real Euclidean distance `eucDist = Real.sqrt ∘ sqDistQ` proved where a claim
speaks of Euclidean distance.  Python exceptions are `Except`/status values;
mutation of the global `seen_req_ids` set is explicit state passing.
-/

namespace FacePipeline

/-- An opaque decoded image (PIL image / torch tensor contents). -/
abbrev Image := String

/-- Outcome of the face-detection capability call in
`face_detection.face_detection_func` (MTCNN plus the crop normalize/save/
re-read steps): the call can raise, report no face (`mtcnn` returns `None`),
or produce the base64-encoded saved face crop. -/
inductive DetectOutcome where
  | raised
  | noFace
  | face (crop : String)
deriving DecidableEq, Repr

/-- Environment of the Detection Stage: the external capabilities
`process_message` calls.  `decodeImg` is the base64-decode / tmp-file write /
`Image.open` pipeline for the inbound image (`none` = it raises);
`respSendOk` / `workSendOk` say whether `sqs.send_message` to the response
queue resp. the request (work) queue succeeds (`false` = it raises). -/
structure FDEnv where
  decodeImg : String → Option Image
  detect : Image → DetectOutcome
  respSendOk : Bool
  workSendOk : Bool

/-- Inbound event payload as parsed from JSON: `body["encoded"]`,
`body["request_id"]` (a missing field raises `KeyError`, modelled by
`none`), `body.get("filename", "")`. -/
structure RawEvent where
  encoded : Option String
  request_id : Option String
  filename : Option String
deriving DecidableEq, Repr

/-- Message sent by the Detection Stage to the response queue
(`response_payload` in `process_message`): it carries `request_id`,
`result` and `filename`. -/
structure Response where
  request_id : String
  result : String
  filename : String
deriving DecidableEq, Repr

/-- Message sent by the Detection Stage to the work (request) queue
(`payload` in `process_message`): `{request_id, face_image, filename}`. -/
structure WorkItem where
  request_id : String
  face_image : String
  filename : String
deriving DecidableEq, Repr

/-- How one `process_message` call ended: completed normally, discarded a
duplicate `request_id`, or raised a Python exception (later caught in
`on_stream_event`). -/
inductive PStatus where
  | ok
  | dupDropped
  | errored
deriving DecidableEq, Repr

/-- Result of one `process_message` call: the posterior `seen_req_ids` set
(a list of request ids), the messages actually sent to the response queue
and to the work queue during the call, and how the call ended. -/
structure FDResult where
  seen : List String
  responses : List Response
  workItems : List WorkItem
  status : PStatus
deriving DecidableEq, Repr

/-- Field extraction at the top of `process_message`:
`encoded = body["encoded"]`, `req_id = body["request_id"]` (KeyError when
missing), `fname = body.get("filename", "")`. -/
def extractEvent (body : RawEvent) : Option (String × String × String) :=
  match body.encoded, body.request_id with
  | some encoded, some req_id => some (encoded, req_id, body.filename.getD "")
  | _, _ => none

/-- `fd_component.process_message`, one inbound event against the current
`seen_req_ids` state.  Order faithfully mirrors the source: extract fields
(raises on a missing key), dedup check and insert, base64-decode/write/open
the image (raise ⇒ exception), run detection; on no face send a
`"No-Face"` response, on a face send a WorkItem to the work queue. -/
def process_message (env : FDEnv) (seen : List String) (body : RawEvent) :
    FDResult :=
  match extractEvent body with
  | none => ⟨seen, [], [], .errored⟩
  | some (encoded, req_id, fname) =>
    if req_id ∈ seen then ⟨seen, [], [], .dupDropped⟩
    else
      let seen' := req_id :: seen
      match env.decodeImg encoded with
      | none => ⟨seen', [], [], .errored⟩
      | some img =>
        match env.detect img with
        | .raised => ⟨seen', [], [], .errored⟩
        | .noFace =>
          if env.respSendOk then
            ⟨seen', [⟨req_id, "No-Face", fname⟩], [], .ok⟩
          else ⟨seen', [], [], .errored⟩
        | .face crop =>
          if env.workSendOk then
            ⟨seen', [], [⟨req_id, crop, fname⟩], .ok⟩
          else ⟨seen', [], [], .errored⟩

/-- `fd_component.on_stream_event`: wraps `process_message` in
`try/except`, so any raised exception is logged and the subscriber keeps
running with the (already mutated) `seen_req_ids` state.  The catch is
modelled by totality: every outcome, `errored` included, yields a posterior
state and the emission lists. -/
def onStreamEvent (env : FDEnv) (seen : List String) (body : RawEvent) :
    List String × List Response × List WorkItem :=
  let r := process_message env seen body
  (r.seen, r.responses, r.workItems)

/-- Total number of messages a `process_message` call emitted. -/
def emitted (r : FDResult) : Nat :=
  r.responses.length + r.workItems.length

/-- An embedding vector (`torch` tensor contents), exact rationals in place
of floats. -/
abbrev Embedding := List ℚ

/-- Squared Euclidean distance between two embeddings.  `torch.dist` in
`face_recognition_func` is the Euclidean 2-norm of the difference; since
`Real.sqrt` is strictly monotone and injective on nonnegatives, the argmin
and the tie pattern of the distance list are those of this square (the
bridge to `eucDist` is proved in the matcher theorems). -/
def sqDistQ (a b : Embedding) : ℚ :=
  (List.zipWith (fun x y => (x - y) ^ 2) a b).sum

/-- The Euclidean distance `torch.dist` computes, as a real number. -/
noncomputable def eucDist (a b : Embedding) : ℝ :=
  Real.sqrt ((sqDistQ a b : ℝ))

/-- Python's `min(dist_list)`: `None` (a raised `ValueError`) on the empty
list, otherwise the least element, computed by a left fold as the builtin
does. -/
def pyMin : List ℚ → Option ℚ
  | [] => none
  | x :: xs => some (xs.foldl min x)

/-- Python's `dist_list.index(m)`: index of the first occurrence of `m`
(callers below only use it on members, as the source does). -/
def pyIndex (m : ℚ) : List ℚ → Nat
  | [] => 0
  | x :: xs => if x = m then 0 else pyIndex m xs + 1

/-- The nearest-neighbor match at `fr_lambda.py` lines 40–44, extracted as
a function of the query embedding and the reference database:
`dist_list = [torch.dist(emb, emb_db) for emb_db in embedding_list]`,
`min_index = dist_list.index(min(dist_list))`,
`recognized_name = name_list[min_index]`.  `min` on an empty list and an
out-of-range `name_list[min_index]` raise (`Except.error`). -/
def nn_match (emb : Embedding) (embedding_list : List Embedding)
    (name_list : List String) : Except Unit String :=
  let dist_list := embedding_list.map (fun emb_db => sqDistQ emb emb_db)
  match pyMin dist_list with
  | none => .error ()
  | some m =>
    match name_list[pyIndex m dist_list]? with
    | none => .error ()
    | some recognized_name => .ok recognized_name

/-- Environment of the Recognition Stage: `openImage` is
`Image.open(face_img_path).convert("RGB")` on the written crop bytes
(error = it raises on garbage bytes), `embed` is the ResNet forward pass
`self.resnet(face_tensor.unsqueeze(0))` (error = it raises), and
`savedEmbeddings` / `savedNames` are `saved_data[0]` / `saved_data[1]`
from `torch.load(model_wt_path)` — the reference database. -/
structure FREnv where
  openImage : String → Except Unit Image
  embed : Image → Except Unit Embedding
  savedEmbeddings : List Embedding
  savedNames : List String

/-- `face_recognition.face_recognition_func` on one face crop.  Returns the
number of model/database load pairs performed
(`torch.load(model_wt_path)` + `torch.jit.load(model_path)`, executed on
every call once the image is opened) together with the Python result:
`ok (some name)` for a recognized name, `ok none` for the
`face_tensor is None` branch, `error` for a raised exception.
`face_tensor = torch.tensor(...)` is always a tensor, so the scrutinee of
the `is not None` check is literally `some img` here, as in the source the
`else` branch is dead. -/
def face_recognition_func (env : FREnv) (crop : String) :
    Nat × Except Unit (Option String) :=
  match env.openImage crop with
  | .error e => (0, .error e)
  | .ok img =>
    match (some img : Option Image) with
    | some t =>
      match env.embed t with
      | .error e => (1, .error e)
      | .ok emb =>
        match nn_match emb env.savedEmbeddings env.savedNames with
        | .error e => (1, .error e)
        | .ok recognized_name => (1, .ok (some recognized_name))
    | none => (1, .ok none)

/-- One SQS record body in the Recognition Stage batch:
`{request_id, face_image, filename}` as parsed in `async_handler`. -/
structure WorkMsg where
  request_id : String
  face_image : String
  filename : String
deriving DecidableEq, Repr

/-- The `result_message` dict built in `async_handler`: it has exactly the
keys `request_id` and `result` — no `filename` key. -/
structure ResultMsg where
  request_id : String
  result : String
deriving DecidableEq, Repr

/-- The JSON object `json.dumps(result_message)` serializes: an ordered
field list, mirroring the dict literal in `async_handler`. -/
def resultMsgFields (r : ResultMsg) : List (String × String) :=
  [("request_id", r.request_id), ("result", r.result)]

/-- The JSON object for the Detection Stage's `response_payload` dict. -/
def responseFields (r : Response) : List (String × String) :=
  [("request_id", r.request_id), ("result", r.result),
   ("filename", r.filename)]

/-- Python truthiness in `recognized_name if recognized_name else
"Unknown"`: `None` and the empty string are falsy. -/
def resultString : Option String → String
  | some n => if n = "" then "Unknown" else n
  | none => "Unknown"

/-- The per-record body of `async_handler`'s loop: write the crop to a temp
file, call `face_recognition_func`, build `result_message` and send it.
Returns the load count and either the sent `ResultMsg` or the raised
exception. -/
def processRecord (env : FREnv) (m : WorkMsg) : Nat × Except Unit ResultMsg :=
  match face_recognition_func env m.face_image with
  | (loads, .error e) => (loads, .error e)
  | (loads, .ok name?) =>
    (loads, .ok ⟨m.request_id, resultString name?⟩)

/-- `fr_lambda.async_handler` over the batch `event["Records"]`: processes
records in order; each successful record's `result_message` is sent before
the next record starts, and a raised exception aborts the loop (the
remaining records are not processed).  Returns the results actually sent,
the total number of model/database load pairs performed, and whether the
loop completed without an exception. -/
def async_handler (env : FREnv) : List WorkMsg → List ResultMsg × Nat × Bool
  | [] => ([], 0, true)
  | m :: ms =>
    match processRecord env m with
    | (loads, .ok res) =>
      let (rest, loads', okFlag) := async_handler env ms
      (res :: rest, loads + loads', okFlag)
    | (loads, .error _) => ([], loads, false)

/-- `fr_lambda.handler`: runs `async_handler` under `try/except`; an
escaped exception yields the 500 response, otherwise the 200 response.
Either way the messages already sent stay sent. -/
def handler (env : FREnv) (msgs : List WorkMsg) : List ResultMsg × Nat :=
  let (rs, _, okFlag) := async_handler env msgs
  (rs, if okFlag then 200 else 500)

/-! ### Helper lemmas about `pyMin`, `pyIndex` and `sqDistQ` -/

theorem foldl_min_le_init (xs : List ℚ) (a : ℚ) : xs.foldl min a ≤ a := by
  induction xs generalizing a with
  | nil => exact le_refl a
  | cons x xs ih =>
    exact le_trans (ih (min a x)) (min_le_left a x)

theorem foldl_min_mem (xs : List ℚ) (a : ℚ) :
    xs.foldl min a = a ∨ xs.foldl min a ∈ xs := by
  induction xs generalizing a with
  | nil => exact Or.inl rfl
  | cons x xs ih =>
    rcases ih (min a x) with h | h
    · rcases min_choice a x with hm | hm
      · exact Or.inl (by rw [List.foldl_cons, h, hm])
      · exact Or.inr (by rw [List.foldl_cons, h, hm]; exact List.mem_cons_self x xs)
    · exact Or.inr (List.mem_cons_of_mem x h)

theorem foldl_min_le_mem (xs : List ℚ) (a : ℚ) {y : ℚ} (hy : y ∈ xs) :
    xs.foldl min a ≤ y := by
  induction xs generalizing a with
  | nil => cases hy
  | cons x xs ih =>
    rcases List.mem_cons.mp hy with h | h
    · subst h
      exact le_trans (foldl_min_le_init xs (min a y)) (min_le_right a y)
    · exact ih (min a x) h

theorem pyMin_mem {l : List ℚ} {m : ℚ} (h : pyMin l = some m) : m ∈ l := by
  cases l with
  | nil => cases h
  | cons x xs =>
    have hm : xs.foldl min x = m := Option.some.inj h
    rcases foldl_min_mem xs x with h' | h'
    · rw [← hm, h']; exact List.mem_cons_self x xs
    · rw [← hm]; exact List.mem_cons_of_mem x h'

theorem pyMin_le {l : List ℚ} {m : ℚ} (h : pyMin l = some m) :
    ∀ y ∈ l, m ≤ y := by
  cases l with
  | nil => cases h
  | cons x xs =>
    have hm : xs.foldl min x = m := Option.some.inj h
    intro y hy
    rcases List.mem_cons.mp hy with h' | h'
    · subst h'; rw [← hm]; exact foldl_min_le_init xs y
    · rw [← hm]; exact foldl_min_le_mem xs x h'

theorem pyMin_of_ne_nil {l : List ℚ} (h : l ≠ []) : ∃ m, pyMin l = some m := by
  cases l with
  | nil => exact absurd rfl h
  | cons x xs => exact ⟨xs.foldl min x, rfl⟩

theorem pyIndex_lt_length {m : ℚ} {l : List ℚ} (h : m ∈ l) :
    pyIndex m l < l.length := by
  induction l with
  | nil => cases h
  | cons x xs ih =>
    by_cases hx : x = m
    · simp [pyIndex, hx]
    · rcases List.mem_cons.mp h with h' | h'
      · exact absurd h'.symm hx
      · simpa [pyIndex, hx, Nat.succ_lt_succ_iff] using ih h'

theorem pyIndex_getElem {m : ℚ} {l : List ℚ} (h : m ∈ l) :
    l[pyIndex m l]? = some m := by
  induction l with
  | nil => cases h
  | cons x xs ih =>
    by_cases hx : x = m
    · simp [pyIndex, hx]
    · rcases List.mem_cons.mp h with h' | h'
      · exact absurd h'.symm hx
      · simpa [pyIndex, hx] using ih h'

theorem pyIndex_first {m : ℚ} {l : List ℚ} :
    ∀ j < pyIndex m l, l[j]? ≠ some m := by
  induction l with
  | nil => intro j hj; simp [pyIndex] at hj
  | cons x xs ih =>
    intro j hj
    by_cases hx : x = m
    · simp [pyIndex, hx] at hj
    · cases j with
      | zero => simpa using hx
      | succ j =>
        have hj' : j < pyIndex m xs := by
          simpa [pyIndex, hx, Nat.succ_lt_succ_iff] using hj
        simpa using ih j hj'

theorem sqDistQ_nonneg (a b : Embedding) : 0 ≤ sqDistQ a b := by
  unfold sqDistQ
  induction a generalizing b with
  | nil => simp
  | cons x xs ih =>
    cases b with
    | nil => simp
    | cons y ys =>
      simp only [List.zipWith_cons_cons, List.sum_cons]
      have h1 : (0 : ℚ) ≤ (x - y) ^ 2 := sq_nonneg _
      have h2 := ih ys
      linarith

theorem eucDist_le_eucDist {e a b : Embedding}
    (h : sqDistQ e a ≤ sqDistQ e b) : eucDist e a ≤ eucDist e b := by
  unfold eucDist
  exact Real.sqrt_le_sqrt (by exact_mod_cast h)

theorem eucDist_ne_eucDist {e a b : Embedding}
    (h : sqDistQ e a ≠ sqDistQ e b) : eucDist e a ≠ eucDist e b := by
  unfold eucDist
  intro hc
  have ha : (0 : ℝ) ≤ (sqDistQ e a : ℝ) := by exact_mod_cast sqDistQ_nonneg e a
  have hb : (0 : ℝ) ≤ (sqDistQ e b : ℝ) := by exact_mod_cast sqDistQ_nonneg e b
  have := (Real.sqrt_inj ha hb).mp hc
  exact h (by exact_mod_cast this)

/-- `min` followed by `.index` on a non-empty list picks out the first
index realizing the least value. -/
theorem firstMin_spec (dl : List ℚ) (hne : dl ≠ []) :
    ∃ m, pyMin dl = some m ∧ pyIndex m dl < dl.length ∧
      dl.getD (pyIndex m dl) 0 = m ∧
      (∀ j, j < dl.length → m ≤ dl.getD j 0) ∧
      (∀ j, j < pyIndex m dl → dl.getD j 0 ≠ m) := by
  obtain ⟨m, hm⟩ := pyMin_of_ne_nil hne
  have hmem : m ∈ dl := pyMin_mem hm
  have hilt : pyIndex m dl < dl.length := pyIndex_lt_length hmem
  refine ⟨m, hm, hilt, ?_, ?_, ?_⟩
  · have h1 : dl[pyIndex m dl]? = some m := pyIndex_getElem hmem
    rw [List.getElem?_eq_getElem hilt] at h1
    rw [List.getD_eq_getElem dl 0 hilt]
    exact Option.some.inj h1
  · intro j hj
    rw [List.getD_eq_getElem dl 0 hj]
    exact pyMin_le hm _ (List.getElem_mem hj)
  · intro j hj
    have hjlt : j < dl.length := lt_trans hj hilt
    have h1 : dl[j]? ≠ some m := pyIndex_first j hj
    rw [List.getElem?_eq_getElem hjlt] at h1
    rw [List.getD_eq_getElem dl 0 hjlt]
    exact fun hc => h1 (congrArg some hc)

/-- The distance list entries are the squared distances to the database
entries, in order. -/
theorem distList_getD (emb : Embedding) (db : List Embedding) (j : Nat)
    (hj : j < db.length) :
    (db.map (fun emb_db => sqDistQ emb emb_db)).getD j 0 =
      sqDistQ emb (db.getD j []) := by
  have hj' : j < (db.map (fun emb_db => sqDistQ emb emb_db)).length := by
    rw [List.length_map]; exact hj
  rw [List.getD_eq_getElem _ 0 hj', List.getD_eq_getElem db [] hj,
    List.getElem_map]

/-- Core specification of `nn_match` on a non-empty database, at the level
of the squared distances: it returns the label at the first index realizing
the minimal distance. -/
theorem nn_match_spec (emb : Embedding) (db : List Embedding)
    (labels : List String) (hne : db ≠ []) (hlen : labels.length = db.length) :
    ∃ i, i < db.length ∧
      nn_match emb db labels = .ok (labels.getD i "") ∧
      (∀ j, j < db.length →
        sqDistQ emb (db.getD i []) ≤ sqDistQ emb (db.getD j [])) ∧
      (∀ j, j < i →
        sqDistQ emb (db.getD j []) ≠ sqDistQ emb (db.getD i [])) := by
  obtain ⟨m, hm, hilt, hgetm, hle, hfirst⟩ :=
    firstMin_spec (db.map (fun emb_db => sqDistQ emb emb_db))
      (by simpa [List.map_eq_nil_iff] using hne)
  rw [List.length_map] at hilt
  refine ⟨pyIndex m (db.map (fun emb_db => sqDistQ emb emb_db)), hilt,
    ?_, ?_, ?_⟩
  · have hilab : pyIndex m (db.map (fun emb_db => sqDistQ emb emb_db)) <
        labels.length := by omega
    have hlab : labels[pyIndex m (db.map (fun emb_db => sqDistQ emb emb_db))]? =
        some (labels.getD
          (pyIndex m (db.map (fun emb_db => sqDistQ emb emb_db))) "") := by
      rw [List.getElem?_eq_getElem hilab, List.getD_eq_getElem labels "" hilab]
    simp only [nn_match, hm, hlab]
  · intro j hj
    rw [← distList_getD emb db _ hilt, ← distList_getD emb db j hj, hgetm]
    exact hle j (by rw [List.length_map]; exact hj)
  · intro j hj
    have hjdb : j < db.length := lt_trans hj hilt
    rw [← distList_getD emb db _ hilt, ← distList_getD emb db j hjdb, hgetm]
    exact hfirst j hj

/-! ### Helper lemmas about the Detection Stage controller -/

/-- A payload with a missing required field raises before anything else:
state unchanged, nothing emitted. -/
theorem process_extract_none (env : FDEnv) (seen : List String)
    (body : RawEvent) (hx : extractEvent body = none) :
    process_message env seen body = ⟨seen, [], [], .errored⟩ := by
  unfold process_message
  rw [hx]

/-- A duplicate `request_id` is discarded: state unchanged, nothing
emitted. -/
theorem process_dup (env : FDEnv) (seen : List String) (body : RawEvent)
    (encoded req_id fname : String)
    (hx : extractEvent body = some (encoded, req_id, fname))
    (hin : req_id ∈ seen) :
    process_message env seen body = ⟨seen, [], [], .dupDropped⟩ := by
  unfold process_message
  rw [hx]
  simp [hin]

/-- A fresh `request_id` is added to the SeenSet before any external call,
and stays there on every outcome; moreover one call emits at most one
message. -/
theorem process_fresh (env : FDEnv) (seen : List String) (body : RawEvent)
    (encoded req_id fname : String)
    (hx : extractEvent body = some (encoded, req_id, fname))
    (hnin : req_id ∉ seen) :
    (process_message env seen body).seen = req_id :: seen ∧
      emitted (process_message env seen body) ≤ 1 := by
  unfold process_message
  rw [hx]
  simp only [hnin, ite_false]
  cases hd : env.decodeImg encoded with
  | none => simp [hd, emitted]
  | some img =>
    cases ho : env.detect img with
    | raised => simp [hd, ho, emitted]
    | noFace => cases hr : env.respSendOk <;> simp [hd, ho, hr, emitted]
    | face crop => cases hw : env.workSendOk <;> simp [hd, ho, hw, emitted]

/-! ### Helper lemmas about the Recognition Stage controller -/

/-- A record that processes successfully performed exactly one
model/database load pair (`face_recognition_func` loads once per call). -/
theorem processRecord_ok_loads (env : FREnv) (m : WorkMsg)
    (h : (processRecord env m).2.isOk = true) :
    (processRecord env m).1 = 1 := by
  unfold processRecord face_recognition_func at h ⊢
  cases ho : env.openImage m.face_image with
  | error e => simp [ho, Except.isOk, Except.toBool] at h
  | ok img =>
    cases he : env.embed img with
    | error e => simp [ho, he]
    | ok emb =>
      cases hn : nn_match emb env.savedEmbeddings env.savedNames with
      | error e => simp [ho, he, hn]
      | ok n => simp [ho, he, hn]

/-- When every record in the batch processes successfully, the batch loop
completes, emits one Result per record, and performs one load pair per
record. -/
theorem async_handler_all_ok (env : FREnv) (msgs : List WorkMsg)
    (h : ∀ m ∈ msgs, (processRecord env m).2.isOk = true) :
    (async_handler env msgs).1.length = msgs.length ∧
      (async_handler env msgs).2.1 = msgs.length ∧
      (async_handler env msgs).2.2 = true := by
  induction msgs with
  | nil => exact ⟨rfl, rfl, rfl⟩
  | cons m ms ih =>
    have hm := h m (List.mem_cons_self m ms)
    have hloads := processRecord_ok_loads env m hm
    have ih' := ih (fun x hx => h x (List.mem_cons_of_mem m hx))
    unfold async_handler
    rcases hpr : processRecord env m with ⟨loads, r⟩
    cases r with
    | error e => rw [hpr] at hm; simp [Except.isOk, Except.toBool] at hm
    | ok res =>
      rw [hpr] at hloads
      simp only at hloads
      rcases hrec : async_handler env ms with ⟨rest, loads', okFlag⟩
      rw [hrec] at ih'
      simp only at ih'
      simp only [hpr, hrec, List.length_cons]
      refine ⟨by rw [ih'.1], by rw [ih'.2.1]; omega, ih'.2.2⟩

/-- A record whose processing raises aborts the whole batch loop: nothing
is emitted for it nor for any later record, and the exception escapes
`async_handler`. -/
theorem async_handler_abort (env : FREnv) (m : WorkMsg) (ms : List WorkMsg)
    (h : (processRecord env m).2.isOk = false) :
    async_handler env (m :: ms) = ([], (processRecord env m).1, false) := by
  unfold async_handler
  rcases hpr : processRecord env m with ⟨loads, r⟩
  cases r with
  | error e => rfl
  | ok res => rw [hpr] at h; simp [Except.isOk, Except.toBool] at h

/-- On a fresh, decodable event, `process_message` is determined by the
detection outcome and the send outcomes. -/
theorem process_fresh_cases (env : FDEnv) (seen : List String)
    (body : RawEvent) (encoded req_id fname : String) (img : Image)
    (hx : extractEvent body = some (encoded, req_id, fname))
    (hnin : req_id ∉ seen)
    (hd : env.decodeImg encoded = some img) :
    process_message env seen body =
      match env.detect img with
      | .raised => ⟨req_id :: seen, [], [], .errored⟩
      | .noFace =>
        if env.respSendOk then
          ⟨req_id :: seen, [⟨req_id, "No-Face", fname⟩], [], .ok⟩
        else ⟨req_id :: seen, [], [], .errored⟩
      | .face crop =>
        if env.workSendOk then
          ⟨req_id :: seen, [], [⟨req_id, crop, fname⟩], .ok⟩
        else ⟨req_id :: seen, [], [], .errored⟩ := by
  unfold process_message
  rw [hx]
  simp only [hnin, ite_false, hd]

/-! ### Example environments and inputs used by witnesses and
counterexamples -/

/-- Detection environment where decoding succeeds and MTCNN reports no
face. -/
def exEnvNoFace : FDEnv :=
  ⟨fun _ => some "img", fun _ => .noFace, true, true⟩

/-- Detection environment where decoding succeeds and MTCNN crops a
face. -/
def exEnvFace : FDEnv :=
  ⟨fun _ => some "img", fun _ => .face "cropbytes", true, true⟩

/-- Detection environment where the inbound image bytes fail to decode. -/
def exEnvBadDecode : FDEnv :=
  ⟨fun _ => none, fun _ => .noFace, true, true⟩

/-- Inbound payload with all fields present. -/
def exBody : RawEvent := ⟨some "enc", some "r1", some "f.jpg"⟩

/-- Inbound payload missing the required `request_id` field. -/
def exBodyNoId : RawEvent := ⟨some "enc", none, none⟩

/-- Recognition environment where everything succeeds against the
single-identity database `[("alice", [0])]`. -/
def exFRAlice : FREnv :=
  ⟨fun _ => .ok "img", fun _ => .ok [0], [[0]], ["alice"]⟩

/-- Recognition environment whose embedding step (ResNet forward pass)
raises on every crop. -/
def exFREmbedFail : FREnv :=
  ⟨fun _ => .ok "img", fun _ => .error (), [[0]], ["alice"]⟩

/-- Recognition environment with an empty reference database. -/
def exFREmptyDb : FREnv :=
  ⟨fun _ => .ok "img", fun _ => .ok [0], [], []⟩

/-- Recognition environment whose only database label is the empty
string. -/
def exFREmptyLabel : FREnv :=
  ⟨fun _ => .ok "img", fun _ => .ok [0], [[0]], [""]⟩

/-- First example WorkItem message. -/
def exW1 : WorkMsg := ⟨"r1", "crop1", "f.jpg"⟩

/-- Second example WorkItem message. -/
def exW2 : WorkMsg := ⟨"r2", "crop2", "g.jpg"⟩

/-! ### Claim theorems -/

/-- C3: for a fresh, decodable inbound event with working queues, a
no-face detection emits exactly one `"No-Face"` Result (the wire value of
classification "no-face") and no WorkItem, and a face detection publishes
exactly one WorkItem `{request_id, face_crop, filename}` and no Result. -/
theorem detect_route_correctness (env : FDEnv) (seen : List String)
    (body : RawEvent) (encoded req_id fname : String) (img : Image)
    (hx : extractEvent body = some (encoded, req_id, fname))
    (hnin : req_id ∉ seen)
    (hd : env.decodeImg encoded = some img)
    (hr : env.respSendOk = true)
    (hw : env.workSendOk = true) :
    (env.detect img = .noFace →
      process_message env seen body =
        ⟨req_id :: seen, [⟨req_id, "No-Face", fname⟩], [], .ok⟩) ∧
    (∀ crop, env.detect img = .face crop →
      process_message env seen body =
        ⟨req_id :: seen, [], [⟨req_id, crop, fname⟩], .ok⟩) := by
  rw [process_fresh_cases env seen body encoded req_id fname img hx hnin hd]
  constructor
  · intro ho
    rw [ho]
    simp [hr]
  · intro crop ho
    rw [ho]
    simp [hw]

/-- Witness for C3 on a concrete no-face run. -/
theorem detect_route_correctness_witness :
    extractEvent exBody = some ("enc", "r1", "f.jpg") ∧
    process_message exEnvNoFace [] exBody =
      ⟨["r1"], [⟨"r1", "No-Face", "f.jpg"⟩], [], .ok⟩ :=
  ⟨by decide,
   (detect_route_correctness exEnvNoFace [] exBody "enc" "r1" "f.jpg" "img"
      (by decide) (by decide) rfl rfl rfl).1 rfl⟩

/-- C5: a duplicate `request_id` is discarded with no side effects (state
and emissions unchanged), and delivering the same inbound event twice to
one running instance produces at most one message in total. -/
theorem dedup_idempotence (env : FDEnv) (seen : List String)
    (body : RawEvent) :
    (∀ encoded req_id fname,
        extractEvent body = some (encoded, req_id, fname) →
        req_id ∈ seen →
        process_message env seen body = ⟨seen, [], [], .dupDropped⟩) ∧
    emitted (process_message env seen body) +
      emitted (process_message env (process_message env seen body).seen body)
      ≤ 1 := by
  constructor
  · intro encoded req_id fname hx hin
    exact process_dup env seen body encoded req_id fname hx hin
  · rcases hx : extractEvent body with _ | ⟨encoded, req_id, fname⟩
    · rw [process_extract_none env seen body hx]
      simp only
      rw [process_extract_none env seen body hx]
      simp [emitted]
    · by_cases hin : req_id ∈ seen
      · rw [process_dup env seen body encoded req_id fname hx hin]
        simp only
        rw [process_dup env seen body encoded req_id fname hx hin]
        simp [emitted]
      · obtain ⟨hseen, hle⟩ :=
          process_fresh env seen body encoded req_id fname hx hin
        rw [hseen,
          process_dup env (req_id :: seen) body encoded req_id fname hx
            (List.mem_cons_self req_id seen)]
        have h0 : emitted ⟨req_id :: seen, [], [], .dupDropped⟩ = 0 := rfl
        omega

/-- Witness for C5 on a concrete duplicate delivery. -/
theorem dedup_idempotence_witness :
    process_message exEnvNoFace ["r1"] exBody = ⟨["r1"], [], [], .dupDropped⟩ ∧
    emitted (process_message exEnvNoFace [] exBody) +
      emitted (process_message exEnvNoFace
        (process_message exEnvNoFace [] exBody).seen exBody) ≤ 1 :=
  ⟨(dedup_idempotence exEnvNoFace ["r1"] exBody).1 "enc" "r1" "f.jpg"
      (by decide) (by decide),
   (dedup_idempotence exEnvNoFace [] exBody).2⟩

/-- C8: a malformed inbound event — a missing required field or an image
that fails to decode — is silently dropped: the Detection Stage publishes
no Result and no WorkItem for it, and the controller survives (the
exception is caught in `on_stream_event`, which always returns a posterior
state). -/
theorem malformed_input_dropped (env : FDEnv) (seen : List String)
    (body : RawEvent)
    (h : extractEvent body = none ∨
      ∃ encoded req_id fname,
        extractEvent body = some (encoded, req_id, fname) ∧
        env.decodeImg encoded = none) :
    (onStreamEvent env seen body).2.1 = [] ∧
    (onStreamEvent env seen body).2.2 = [] := by
  unfold onStreamEvent
  rcases h with hx | ⟨encoded, req_id, fname, hx, hd⟩
  · rw [process_extract_none env seen body hx]
    exact ⟨rfl, rfl⟩
  · by_cases hin : req_id ∈ seen
    · rw [process_dup env seen body encoded req_id fname hx hin]
      exact ⟨rfl, rfl⟩
    · unfold process_message
      rw [hx]
      simp [hin, hd]

/-- Witness for C8: an undecodable image and a missing `request_id`. -/
theorem malformed_input_dropped_witness :
    ((onStreamEvent exEnvBadDecode [] exBody).2.1 = [] ∧
      (onStreamEvent exEnvBadDecode [] exBody).2.2 = []) ∧
    ((onStreamEvent exEnvNoFace [] exBodyNoId).2.1 = [] ∧
      (onStreamEvent exEnvNoFace [] exBodyNoId).2.2 = []) :=
  ⟨malformed_input_dropped exEnvBadDecode [] exBody
      (Or.inr ⟨"enc", "r1", "f.jpg", by decide, rfl⟩),
   malformed_input_dropped exEnvNoFace [] exBodyNoId (Or.inl (by decide))⟩

/-- The SeenSet only grows: `process_message` never removes an id. -/
theorem process_seen_mono (env : FDEnv) (seen : List String)
    (body : RawEvent) :
    ∀ x ∈ seen, x ∈ (process_message env seen body).seen := by
  intro x hx
  rcases hex : extractEvent body with _ | ⟨enc, rid, f⟩
  · rw [process_extract_none env seen body hex]
    exact hx
  · by_cases hin : rid ∈ seen
    · rw [process_dup env seen body enc rid f hex hin]
      exact hx
    · rw [(process_fresh env seen body enc rid f hex hin).1]
      exact List.mem_cons_of_mem rid hx

/-- C9: once a fresh `request_id` passes the dedup gate, it is in the
SeenSet even when processing then fails; the SeenSet only ever grows, and
every later delivery of the same event to a state containing that id is
discarded with no emissions — a failed request is not retryable within the
instance's lifetime. -/
theorem failed_request_not_retryable (env : FDEnv) (seen : List String)
    (body : RawEvent) (encoded req_id fname : String)
    (hx : extractEvent body = some (encoded, req_id, fname))
    (hnin : req_id ∉ seen)
    (herr : (process_message env seen body).status = .errored) :
    req_id ∈ (process_message env seen body).seen ∧
    (∀ seen2, req_id ∈ seen2 →
      process_message env seen2 body = ⟨seen2, [], [], .dupDropped⟩) ∧
    (∀ seen2 body2, req_id ∈ seen2 →
      req_id ∈ (process_message env seen2 body2).seen) := by
  refine ⟨?_, ?_, ?_⟩
  · rw [(process_fresh env seen body encoded req_id fname hx hnin).1]
    exact List.mem_cons_self req_id seen
  · intro seen2 h2
    exact process_dup env seen2 body encoded req_id fname hx h2
  · intro seen2 body2 h2
    exact process_seen_mono env seen2 body2 req_id h2

/-- Witness for C9 on a run whose image decode raises. -/
theorem failed_request_not_retryable_witness :
    (process_message exEnvBadDecode [] exBody).status = .errored ∧
    "r1" ∈ (process_message exEnvBadDecode [] exBody).seen ∧
    process_message exEnvBadDecode ["r1"] exBody =
      ⟨["r1"], [], [], .dupDropped⟩ :=
  ⟨by decide,
   (failed_request_not_retryable exEnvBadDecode [] exBody "enc" "r1" "f.jpg"
      (by decide) (by decide) (by decide)).1,
   (failed_request_not_retryable exEnvBadDecode [] exBody "enc" "r1" "f.jpg"
      (by decide) (by decide) (by decide)).2.1 ["r1"] (by decide)⟩

/-- C2: the matcher is a (definitionally deterministic) function of the
query embedding and the database; it returns the label at the first index
whose Euclidean distance `eucDist` (= `torch.dist`) to the query is
minimal, with exact ties broken toward the lowest index. -/
theorem matcher_deterministic_first_min (emb : Embedding)
    (db : List Embedding) (labels : List String)
    (hne : db ≠ []) (hlen : labels.length = db.length) :
    ∃ i, i < db.length ∧
      nn_match emb db labels = .ok (labels.getD i "") ∧
      (∀ j, j < db.length →
        eucDist emb (db.getD i []) ≤ eucDist emb (db.getD j [])) ∧
      (∀ j, j < i →
        eucDist emb (db.getD j []) ≠ eucDist emb (db.getD i [])) := by
  obtain ⟨i, hi, heq, hle, hfirst⟩ := nn_match_spec emb db labels hne hlen
  exact ⟨i, hi, heq, fun j hj => eucDist_le_eucDist (hle j hj),
    fun j hj => eucDist_ne_eucDist (hfirst j hj)⟩

/-- Witness for C2 on a database with an exact tie at indices 0 and 1. -/
theorem matcher_deterministic_first_min_witness :
    (([[1], [1], [2]] : List Embedding) ≠ [] ∧
      (["a", "b", "c"] : List String).length =
        ([[1], [1], [2]] : List Embedding).length) ∧
    ∃ i, i < ([[1], [1], [2]] : List Embedding).length ∧
      nn_match [0] [[1], [1], [2]] ["a", "b", "c"] =
        .ok ((["a", "b", "c"] : List String).getD i "") ∧
      (∀ j, j < ([[1], [1], [2]] : List Embedding).length →
        eucDist [0] (([[1], [1], [2]] : List Embedding).getD i []) ≤
          eucDist [0] (([[1], [1], [2]] : List Embedding).getD j [])) ∧
      (∀ j, j < i →
        eucDist [0] (([[1], [1], [2]] : List Embedding).getD j []) ≠
          eucDist [0] (([[1], [1], [2]] : List Embedding).getD i [])) :=
  ⟨⟨by decide, by decide⟩,
   matcher_deterministic_first_min [0] [[1], [1], [2]] ["a", "b", "c"]
     (by decide) (by decide)⟩

/-- C4 counterexample: with a batch of two WorkItems whose first crop makes
the embedding step raise, `async_handler` emits no Result at all (in
particular no `"Unknown"` for the failing item), does not process the
second WorkItem, and the whole invocation fails with a 500 — contradicting
the claim that an `"unknown"` Result is emitted and the rest of the batch
still processed. -/
theorem batch_abort_counterexample :
    async_handler exFREmbedFail [exW1, exW2] = ([], 1, false) ∧
    (handler exFREmbedFail [exW1, exW2]).2 = 500 ∧
    (async_handler exFREmbedFail [exW1, exW2]).1.length ≠ 2 := by
  refine ⟨by decide, by decide, by decide⟩

/-- C4 (amended): when the embedding step fails for a WorkItem, the raised
exception aborts the whole batch — no Result is emitted for that WorkItem,
the remaining WorkItems are not processed, and `handler` catches the
exception and returns 500. (`"Unknown"` is emitted only when
`face_recognition_func` returns a falsy value, which does not abort.) -/
theorem per_item_failure_aborts_batch (env : FREnv) (m : WorkMsg)
    (ms : List WorkMsg) (h : (processRecord env m).2.isOk = false) :
    async_handler env (m :: ms) = ([], (processRecord env m).1, false) ∧
    (handler env (m :: ms)).2 = 500 := by
  have habort := async_handler_abort env m ms h
  refine ⟨habort, ?_⟩
  unfold handler
  rw [habort]
  rfl

/-- Witness for C4's amended statement on the concrete failing batch. -/
theorem per_item_failure_aborts_batch_witness :
    (processRecord exFREmbedFail exW1).2.isOk = false ∧
    async_handler exFREmbedFail [exW1, exW2] =
      ([], (processRecord exFREmbedFail exW1).1, false) ∧
    (handler exFREmbedFail [exW1, exW2]).2 = 500 :=
  ⟨by decide,
   (per_item_failure_aborts_batch exFREmbedFail exW1 [exW2] (by decide)).1,
   (per_item_failure_aborts_batch exFREmbedFail exW1 [exW2] (by decide)).2⟩

/-- C6: against an empty reference database the matcher raises
(`min([])` is a `ValueError`) — it never returns `"unknown"` nor any
label — and the Recognition Stage fails: nothing is emitted for the batch
and `handler` returns 500 instead of an `"Unknown"` Result. -/
theorem empty_db_fails (env : FREnv) (m : WorkMsg) (ms : List WorkMsg)
    (hdb : env.savedEmbeddings = []) :
    (∀ emb names, nn_match emb [] names = .error ()) ∧
    (async_handler env (m :: ms)).1 = [] ∧
    (async_handler env (m :: ms)).2.2 = false ∧
    (handler env (m :: ms)).2 = 500 := by
  have hko : (processRecord env m).2.isOk = false := by
    unfold processRecord face_recognition_func
    cases ho : env.openImage m.face_image with
    | error e => simp [ho, Except.isOk, Except.toBool]
    | ok img =>
      cases he : env.embed img with
      | error e => simp [ho, he, Except.isOk, Except.toBool]
      | ok emb =>
        simp [ho, he, hdb, nn_match, pyMin, Except.isOk, Except.toBool]
  have habort := async_handler_abort env m ms hko
  refine ⟨fun emb names => rfl, ?_, ?_, ?_⟩
  · rw [habort]
  · rw [habort]
  · unfold handler
    rw [habort]
    rfl

/-- Witness for C6 on a concrete empty-database environment. -/
theorem empty_db_fails_witness :
    exFREmptyDb.savedEmbeddings = [] ∧
    (async_handler exFREmptyDb [exW1]).1 = [] ∧
    (handler exFREmptyDb [exW1]).2 = 500 :=
  ⟨rfl,
   (empty_db_fails exFREmptyDb exW1 [] rfl).2.1,
   (empty_db_fails exFREmptyDb exW1 [] rfl).2.2.2⟩

/-- C7 counterexample: a batch of two WorkItems performs two model/database
load pairs (`torch.load` and `torch.jit.load` run inside
`face_recognition_func`, once per record), contradicting "loaded at most
once per handler invocation". -/
theorem reload_per_workitem_counterexample :
    (async_handler exFRAlice [exW1, exW2]).2.1 = 2 ∧
    ¬((async_handler exFRAlice [exW1, exW2]).2.1 ≤ 1) := by
  have h : async_handler exFRAlice [exW1, exW2] =
      ([⟨"r1", "alice"⟩, ⟨"r2", "alice"⟩], 2, true) := by
    simp [async_handler, processRecord, face_recognition_func, nn_match,
      pyMin, pyIndex, sqDistQ, resultString, exFRAlice, exW1, exW2]
  rw [h]
  exact ⟨rfl, by decide⟩

/-- C7 (amended): the model weights and the TorchScript model are loaded
once per WorkItem, not once per handler invocation: a fully successful
batch of `n` records performs exactly `n` load pairs. -/
theorem loads_once_per_workitem (env : FREnv) (msgs : List WorkMsg)
    (h : ∀ m ∈ msgs, (processRecord env m).2.isOk = true) :
    (async_handler env msgs).2.1 = msgs.length :=
  (async_handler_all_ok env msgs h).2.1

/-- Witness for C7's amended statement on a concrete two-record batch. -/
theorem loads_once_per_workitem_witness :
    (∀ m ∈ [exW1, exW2], (processRecord exFRAlice m).2.isOk = true) ∧
    (async_handler exFRAlice [exW1, exW2]).2.1 =
      ([exW1, exW2] : List WorkMsg).length := by
  have hok : ∀ m ∈ [exW1, exW2],
      (processRecord exFRAlice m).2.isOk = true := by
    simp [processRecord, face_recognition_func, nn_match, pyMin, pyIndex,
      sqDistQ, resultString, exFRAlice, exW1, exW2, Except.isOk,
      Except.toBool]
  exact ⟨hok, loads_once_per_workitem exFRAlice [exW1, exW2] hok⟩

/-- Any successfully sent recognition Result echoes the record's
`request_id` (the `result_message` dict copies it verbatim). -/
theorem processRecord_request_id (env : FREnv) (m : WorkMsg) (loads : Nat)
    (res : ResultMsg) (h : processRecord env m = (loads, Except.ok res)) :
    res.request_id = m.request_id := by
  unfold processRecord at h
  rcases hfr : face_recognition_func env m.face_image with ⟨l, r⟩
  rw [hfr] at h
  cases r with
  | error e => simp at h
  | ok name? =>
    simp only [Prod.mk.injEq, Except.ok.injEq] at h
    rw [← h.2]

/-- C1 counterexample: a successfully recognized WorkItem with filename
`"f.jpg"` yields a Result whose serialized form has no `"filename"` key at
all — the Recognition Stage does not carry the filename, contradicting the
claim for every request that reaches a terminal Result.  (The Detection
Stage's own Result does carry it, last conjunct.) -/
theorem result_omits_filename_counterexample :
    processRecord exFRAlice exW1 = (1, .ok ⟨"r1", "alice"⟩) ∧
    exW1.filename = "f.jpg" ∧
    (resultMsgFields ⟨"r1", "alice"⟩).lookup "filename" = none ∧
    (responseFields ⟨"r1", "No-Face", "f.jpg"⟩).lookup "filename" =
      some "f.jpg" := by
  refine ⟨?_, rfl, by decide, by decide⟩
  simp [processRecord, face_recognition_func, nn_match, pyMin, pyIndex,
    sqDistQ, resultString, exFRAlice, exW1]

/-- C1 (amended): `request_id` is carried unchanged into every emitted
message — the Detection Stage's Results and WorkItems carry both the
originating `request_id` and `filename` unchanged, the Recognition Stage
emits exactly one Result per successfully processed WorkItem carrying the
WorkItem's `request_id` unchanged — but the Recognition Stage's Result has
no `filename` field at all. -/
theorem result_correlation (fdenv : FDEnv) (seen : List String)
    (body : RawEvent) (encoded req_id fname : String) (img : Image)
    (fenv : FREnv)
    (hx : extractEvent body = some (encoded, req_id, fname))
    (hnin : req_id ∉ seen)
    (hd : fdenv.decodeImg encoded = some img) :
    (∀ r ∈ (process_message fdenv seen body).responses,
        r.request_id = req_id ∧ r.filename = fname) ∧
    (∀ w ∈ (process_message fdenv seen body).workItems,
        w.request_id = req_id ∧ w.filename = fname) ∧
    (∀ m loads res, processRecord fenv m = (loads, Except.ok res) →
        res.request_id = m.request_id) ∧
    (∀ msgs, (∀ m ∈ msgs, (processRecord fenv m).2.isOk = true) →
        (async_handler fenv msgs).1.length = msgs.length) ∧
    (∀ res : ResultMsg, (resultMsgFields res).lookup "filename" = none) := by
  rw [process_fresh_cases fdenv seen body encoded req_id fname img hx hnin hd]
  refine ⟨?_, ?_, ?_, ?_, ?_⟩
  · intro r hr
    cases ho : fdenv.detect img with
    | raised => simp only [ho] at hr; simp at hr
    | noFace =>
      cases hrs : fdenv.respSendOk with
      | false => simp only [ho, hrs] at hr; simp at hr
      | true =>
        simp only [ho, hrs, if_true] at hr
        rw [List.mem_singleton] at hr
        subst hr
        exact ⟨rfl, rfl⟩
    | face crop =>
      cases hws : fdenv.workSendOk with
      | false => simp only [ho, hws] at hr; simp at hr
      | true => simp only [ho, hws, if_true] at hr; simp at hr
  · intro w hw
    cases ho : fdenv.detect img with
    | raised => simp only [ho] at hw; simp at hw
    | noFace =>
      cases hrs : fdenv.respSendOk with
      | false => simp only [ho, hrs] at hw; simp at hw
      | true => simp only [ho, hrs, if_true] at hw; simp at hw
    | face crop =>
      cases hws : fdenv.workSendOk with
      | false => simp only [ho, hws] at hw; simp at hw
      | true =>
        simp only [ho, hws, if_true] at hw
        rw [List.mem_singleton] at hw
        subst hw
        exact ⟨rfl, rfl⟩
  · exact fun m loads res h => processRecord_request_id fenv m loads res h
  · exact fun msgs h => (async_handler_all_ok fenv msgs h).1
  · intro res
    rfl

/-- Witness for C1's amended statement: concrete consequences with every
hypothesis discharged. -/
theorem result_correlation_witness :
    ((⟨"r1", "No-Face", "f.jpg"⟩ : Response).request_id = "r1" ∧
      (⟨"r1", "No-Face", "f.jpg"⟩ : Response).filename = "f.jpg") ∧
    (resultMsgFields ⟨"r1", "alice"⟩).lookup "filename" = none :=
  ⟨(result_correlation exEnvNoFace [] exBody "enc" "r1" "f.jpg" "img"
      exFRAlice (by decide) (by decide) rfl).1
      ⟨"r1", "No-Face", "f.jpg"⟩ (by decide),
   (result_correlation exEnvNoFace [] exBody "enc" "r1" "f.jpg" "img"
      exFRAlice (by decide) (by decide) rfl).2.2.2.2 ⟨"r1", "alice"⟩⟩

/-- C10 counterexample: with a decodable crop, a successful embedding and
the non-empty database `[[0]]` labelled by the empty string, the
Recognition Stage emits `"Unknown"` (Python truthiness treats the matched
empty-string label as falsy) — and `"Unknown"` is not a database label. -/
theorem unknown_for_empty_label_counterexample :
    processRecord exFREmptyLabel exW1 = (1, .ok ⟨"r1", "Unknown"⟩) ∧
    exFREmptyLabel.savedEmbeddings = [[0]] ∧
    exFREmptyLabel.savedNames = [""] ∧
    ("Unknown" : String) ∉ exFREmptyLabel.savedNames ∧
    exFREmptyLabel.openImage exW1.face_image = .ok "img" := by
  refine ⟨?_, rfl, rfl, by decide, rfl⟩
  simp [processRecord, face_recognition_func, nn_match, pyMin, pyIndex,
    sqDistQ, resultString, exFREmptyLabel, exW1]

/-- C10 (amended): the `face_tensor is None` branch of
`face_recognition_func` is indeed unreachable (it never returns
`ok none`), and for a WorkItem whose crop opens and embeds successfully
against a non-empty database the stage emits the matched database label —
except that a matched label equal to the empty string is replaced by
`"Unknown"` by the truthiness check in `async_handler`. -/
theorem face_tensor_branch_unreachable (env : FREnv) (w : WorkMsg)
    (img : Image) (emb : Embedding)
    (hopen : env.openImage w.face_image = .ok img)
    (hembed : env.embed img = .ok emb)
    (hne : env.savedEmbeddings ≠ [])
    (hlen : env.savedNames.length = env.savedEmbeddings.length) :
    (∀ env2 crop, (face_recognition_func env2 crop).2 ≠ .ok none) ∧
    ∃ i, i < env.savedEmbeddings.length ∧
      processRecord env w =
        (1, .ok ⟨w.request_id,
          resultString (some (env.savedNames.getD i ""))⟩) := by
  constructor
  · intro env2 crop
    unfold face_recognition_func
    cases ho : env2.openImage crop with
    | error e => simp [ho]
    | ok img2 =>
      cases he : env2.embed img2 with
      | error e => simp [ho, he]
      | ok emb2 =>
        cases hn : nn_match emb2 env2.savedEmbeddings env2.savedNames with
        | error e => simp [ho, he, hn]
        | ok n => simp [ho, he, hn]
  · obtain ⟨i, hi, heq, _, _⟩ :=
      nn_match_spec emb env.savedEmbeddings env.savedNames hne hlen
    refine ⟨i, hi, ?_⟩
    unfold processRecord face_recognition_func
    simp only [hopen, hembed, heq]

/-- Witness for C10's amended statement on the concrete "alice"
database. -/
theorem face_tensor_branch_unreachable_witness :
    (exFRAlice.openImage exW1.face_image = .ok "img" ∧
      exFRAlice.embed "img" = .ok [0] ∧
      exFRAlice.savedEmbeddings ≠ [] ∧
      exFRAlice.savedNames.length = exFRAlice.savedEmbeddings.length) ∧
    ((∀ env2 crop, (face_recognition_func env2 crop).2 ≠ .ok none) ∧
      ∃ i, i < exFRAlice.savedEmbeddings.length ∧
        processRecord exFRAlice exW1 =
          (1, .ok ⟨exW1.request_id,
            resultString (some (exFRAlice.savedNames.getD i ""))⟩)) :=
  ⟨⟨rfl, rfl, by decide, by decide⟩,
   face_tensor_branch_unreachable exFRAlice exW1 "img" [0] rfl rfl
     (by decide) (by decide)⟩

end FacePipeline
